import Mathlib

/-!
Verification of the anchor-validity algorithm of `src/validate.ts`
(css-anchor-positioning).

The algorithm reads a host-provided DOM snapshot through a handful of
query primitives (inline/computed style lookup, `offsetParent`,
`parentElement`, `Node.contains`, `document.querySelectorAll`,
`document.querySelector('body')`, the user-agent string).  We embed that
snapshot as a structure of query functions over element ids (`Nat`).
Host DOM trees are finite and acyclic, so the `offsetParent` relation is
well-founded; the structure carries a depth measure witnessing this,
which grounds termination of the containing-block chain walk exactly as
the source's `while` loop relies on it.

`document.querySelectorAll` can throw on malformed selectors; the
snapshot models it as an `Except`-valued query so that thrown host
errors propagate through `validatedForPositioning` unmodified, matching
the source, which contains no try/catch.
-/

/-- A read-only snapshot of the host DOM, holding exactly the query
primitives `validate.ts` uses.  Elements are identified by `Nat`. -/
structure Dom where
  /-- Inline `style.position` of an element. -/
  stylePosition : Nat → String
  /-- `getComputedStyle(el).position`. -/
  computedPosition : Nat → String
  /-- Inline `style.display` of an element. -/
  styleDisplay : Nat → String
  /-- `getComputedStyle(el).display`. -/
  computedDisplay : Nat → String
  /-- `el.offsetParent`: the containing-block parent, possibly absent. -/
  offsetParent : Nat → Option Nat
  /-- `el.parentElement`: the direct tree parent, possibly absent. -/
  parentElement : Nat → Option Nat
  /-- `a.contains(b)`: tree containment query. -/
  containsElem : Nat → Nat → Bool
  /-- `document.querySelector('body')`: the body element, possibly absent. -/
  body : Option Nat
  /-- `navigator.userAgent.includes('Firefox')`. -/
  uaIsFirefox : Bool
  /-- `document.querySelectorAll(sel)`, in document order; may throw. -/
  querySelectorAll : String → Except String (List Nat)
  /-- Depth of an element in the containing-block hierarchy. -/
  depth : Nat → Nat
  /-- DOM trees are finite and acyclic: following `offsetParent`
  strictly decreases the depth measure. -/
  offsetParent_lt : ∀ e p, offsetParent e = some p → depth p < depth e

/-- `isAbsolutelyPositioned(el)` from `validate.ts`: absent input is
falsy; otherwise inline position or computed position is `'absolute'`. -/
def isAbsolutelyPositioned (dom : Dom) : Option Nat → Bool
  | none => false
  | some e =>
    decide (dom.stylePosition e = "absolute") ||
      decide (dom.computedPosition e = "absolute")

/-- `hasDisplayNone(el)` from `validate.ts`: absent input is falsy;
otherwise inline display or computed display is `'none'`. -/
def hasDisplayNone (dom : Dom) : Option Nat → Bool
  | none => false
  | some e =>
    decide (dom.styleDisplay e = "none") ||
      decide (dom.computedDisplay e = "none")

/-- `isContainingBlockICB(floatingElement)` from `validate.ts`. -/
def isContainingBlockICB (dom : Dom) (floatingElement : Nat) : Bool :=
  let isDisplayNone :=
    hasDisplayNone dom (some floatingElement) ||
      hasDisplayNone dom (dom.parentElement floatingElement)
  let cbIsBodyElementFromFF :=
    decide (dom.offsetParent floatingElement = dom.body) && dom.uaIsFirefox
  let offsetParentNullOrBody :=
    decide (dom.offsetParent floatingElement = none) || cbIsBodyElementFromFF
  if offsetParentNullOrBody && !isDisplayNone then true else false

/-- Depth measure on an optional cursor of the chain walk: `none` needs
no fuel, `some e` needs `depth e + 1` steps. -/
def optDepth (dom : Dom) : Option Nat → Nat
  | none => 0
  | some e => dom.depth e + 1

/-- Fuelled form of the `while` loop of `isValidAnchorElement`: starting
from cursor `cur`, push the current node and follow `offsetParent`,
stopping when the cursor is absent or equals `stop`. -/
def cbChainAux (dom : Dom) (stop : Option Nat) : Nat → Option Nat → List Nat
  | _, none => []
  | 0, some _ => []
  | fuel + 1, some cb =>
    if some cb = stop then []
    else cb :: cbChainAux dom stop fuel (dom.offsetParent cb)

/-- The containing-block chain walk of `isValidAnchorElement`, run with
enough fuel for its cursor (the acyclicity measure makes this exact). -/
def cbChainFrom (dom : Dom) (stop cur : Option Nat) : List Nat :=
  cbChainAux dom stop (optDepth dom cur) cur

/-- `anchorCBchain` as accumulated by `isValidAnchorElement`: the walk
starts at the anchor's `offsetParent` and stops at the floating
element's `offsetParent`. -/
def anchorCBchain (dom : Dom) (anchor floating : Nat) : List Nat :=
  cbChainFrom dom (dom.offsetParent floating) (dom.offsetParent anchor)

/-- `Boolean(floating.offsetParent?.contains(anchor))` from
`isValidAnchorElement`: absent containing-block parent degrades to
`false`. -/
def isDescendant (dom : Dom) (anchor floating : Nat) : Bool :=
  match dom.offsetParent floating with
  | none => false
  | some p => dom.containsElem p anchor

/-- `isValidAnchorElement(anchor, floating)` from `validate.ts`:
Rule 1 (same containing block, anchor must not be absolute), Rule 2
(different containing blocks, chain tail must not be absolute), Rule 3
(descendant-or-ICB fallback). -/
def isValidAnchorElement (dom : Dom) (anchor floating : Nat) : Bool :=
  if isAbsolutelyPositioned dom (some anchor) &&
      decide (dom.offsetParent anchor = dom.offsetParent floating) then
    false
  else if decide (dom.offsetParent anchor ≠ dom.offsetParent floating) &&
      isAbsolutelyPositioned dom (anchorCBchain dom anchor floating).getLast? then
    false
  else
    isDescendant dom anchor floating || isContainingBlockICB dom floating

/-- `anchorSelectors.join(', ')` from `validatedForPositioning`. -/
def joinSelectors (anchorSelectors : List String) : String :=
  String.intercalate ", " anchorSelectors

/-- `validatedForPositioning(floatingEl, anchorSelectors)` from
`validate.ts`: absent floating element short-circuits to absent;
otherwise query the document once with the joined selector list and
return the first match that validates.  A host error thrown by the
query propagates unmodified. -/
def validatedForPositioning (dom : Dom) (floatingEl : Option Nat)
    (anchorSelectors : List String) : Except String (Option Nat) :=
  match floatingEl with
  | none => Except.ok none
  | some floating =>
    match dom.querySelectorAll (joinSelectors anchorSelectors) with
    | Except.error e => Except.error e
    | Except.ok anchorElements =>
      Except.ok
        (anchorElements.find? fun anchor => isValidAnchorElement dom anchor floating)

/-! ### Basic properties of the fuelled chain walk -/

theorem cbChainAux_congr (dom : Dom) (stop : Option Nat) :
    ∀ f₁ f₂ cur, optDepth dom cur ≤ f₁ → optDepth dom cur ≤ f₂ →
      cbChainAux dom stop f₁ cur = cbChainAux dom stop f₂ cur := by
  intro f₁
  induction f₁ with
  | zero =>
    intro f₂ cur h₁ h₂
    cases cur with
    | none => cases f₂ <;> rfl
    | some cb => simp [optDepth] at h₁
  | succ f ih =>
    intro f₂ cur h₁ h₂
    cases cur with
    | none => cases f₂ <;> rfl
    | some cb =>
      cases f₂ with
      | zero => simp [optDepth] at h₂
      | succ f₂ =>
        simp only [cbChainAux]
        by_cases hstop : some cb = stop
        · simp [hstop]
        · simp only [if_neg hstop]
          have hle : ∀ g, dom.depth cb + 1 ≤ g + 1 →
              optDepth dom (dom.offsetParent cb) ≤ g := by
            intro g hg
            cases hp : dom.offsetParent cb with
            | none => simp [optDepth]
            | some p =>
              have := dom.offsetParent_lt cb p hp
              simp only [optDepth]
              omega
          have h₁' := hle f (by simpa [optDepth] using h₁)
          have h₂' := hle f₂ (by simpa [optDepth] using h₂)
          rw [ih f₂ (dom.offsetParent cb) h₁' h₂']

theorem cbChainFrom_none (dom : Dom) (stop : Option Nat) :
    cbChainFrom dom stop none = [] := rfl

theorem cbChainFrom_some (dom : Dom) (stop : Option Nat) (cb : Nat) :
    cbChainFrom dom stop (some cb) =
      if some cb = stop then []
      else cb :: cbChainFrom dom stop (dom.offsetParent cb) := by
  unfold cbChainFrom
  simp only [optDepth, cbChainAux]
  by_cases hstop : some cb = stop
  · simp [hstop]
  · simp only [if_neg hstop]
    congr 1
    apply cbChainAux_congr
    · cases hp : dom.offsetParent cb with
      | none => simp [optDepth]
      | some p =>
        have := dom.offsetParent_lt cb p hp
        simp only [optDepth]
        omega
    · exact le_refl _

/-! ### Concrete DOM snapshots used to exercise the theorems -/

/-- `offsetParent` relation of `exDom`: element 0 (an anchor) sits in
containing block 2, whose chain runs 2 → 3 → 4; elements 1 (a floating
element), 3 and 5 all sit directly in containing block 4. -/
def exOP : Nat → Option Nat := fun e =>
  if e = 0 then some 2
  else if e = 1 then some 4
  else if e = 2 then some 3
  else if e = 3 then some 4
  else if e = 5 then some 4
  else none

/-- Depth measure matching `exOP`. -/
def exDepth : Nat → Nat := fun e =>
  if e = 0 then 3
  else if e = 2 then 2
  else if e = 1 then 1
  else if e = 3 then 1
  else if e = 5 then 1
  else 0

/-- A non-Firefox snapshot: element 3 is absolutely positioned (by
computed style), element 5 is a static descendant of container 4, and
the selector list `"x, y"` matches `[3, 5]` in document order; every
other selector string throws a `SyntaxError`. -/
def exDom : Dom where
  stylePosition := fun _ => ""
  computedPosition := fun e => if e = 3 then "absolute" else "static"
  styleDisplay := fun _ => ""
  computedDisplay := fun _ => "block"
  offsetParent := exOP
  parentElement := fun _ => none
  containsElem := fun a b => decide (a = 4 ∧ b = 5)
  body := none
  uaIsFirefox := false
  querySelectorAll := fun s =>
    if s = "x, y" then Except.ok [3, 5] else Except.error "SyntaxError"
  depth := exDepth
  offsetParent_lt := by
    intro e p h
    simp only [exOP] at h
    split_ifs at h <;> simp at h <;> subst_vars <;> decide

/-- `offsetParent` relation of `exDomFF`: only element 20 has a
containing-block parent, the body element 10. -/
def ffOP : Nat → Option Nat := fun e => if e = 20 then some 10 else none

/-- Depth measure matching `ffOP`. -/
def ffDepth : Nat → Nat := fun e => if e = 20 then 1 else 0

/-- A Firefox snapshot: the document body is element 10, floating
element 20 has `offsetParent` equal to the body (the Firefox quirk for
the initial containing block), and element 21 has no `offsetParent`. -/
def exDomFF : Dom where
  stylePosition := fun _ => ""
  computedPosition := fun _ => "static"
  styleDisplay := fun _ => ""
  computedDisplay := fun _ => "block"
  offsetParent := ffOP
  parentElement := fun _ => none
  containsElem := fun _ _ => false
  body := some 10
  uaIsFirefox := true
  querySelectorAll := fun _ => Except.error "SyntaxError"
  depth := ffDepth
  offsetParent_lt := by
    intro e p h
    simp only [ffOP] at h
    split_ifs at h
    simp only [Option.some.injEq] at h
    subst_vars
    decide

/-- The `offsetParent` relation of a snapshot with element `f`'s
containing-block parent made absent. -/
def setOPfun (dom : Dom) (f : Nat) : Nat → Option Nat := fun e =>
  if e = f then none else dom.offsetParent e

/-- The same snapshot with one element's `offsetParent` made absent;
all other queries are unchanged.  Used to state the Firefox-quirk
two-run equivalence. -/
def setOffsetParentNone (dom : Dom) (f : Nat) : Dom where
  stylePosition := dom.stylePosition
  computedPosition := dom.computedPosition
  styleDisplay := dom.styleDisplay
  computedDisplay := dom.computedDisplay
  offsetParent := setOPfun dom f
  parentElement := dom.parentElement
  containsElem := dom.containsElem
  body := dom.body
  uaIsFirefox := dom.uaIsFirefox
  querySelectorAll := dom.querySelectorAll
  depth := dom.depth
  offsetParent_lt := by
    intro e p h
    simp only [setOPfun] at h
    split_ifs at h
    exact dom.offsetParent_lt e p h

/-- `hasDisplayNone` only reads the display-style queries, so it is
stable under snapshots agreeing on those. -/
theorem hasDisplayNone_congr (d₁ d₂ : Dom)
    (h₁ : d₁.styleDisplay = d₂.styleDisplay)
    (h₂ : d₁.computedDisplay = d₂.computedDisplay) (oe : Option Nat) :
    hasDisplayNone d₁ oe = hasDisplayNone d₂ oe := by
  cases oe <;> simp [hasDisplayNone, h₁, h₂]

/-! ### Claim theorems -/

/-- C9: `isAbsolutelyPositioned` returns true iff the input is present
and its inline position style or its computed position equals
`'absolute'`; an absent input yields `false`, never an error. -/
theorem isAbsolutelyPositioned_spec (dom : Dom) :
    isAbsolutelyPositioned dom none = false ∧
    ∀ oe : Option Nat, (isAbsolutelyPositioned dom oe = true ↔
      ∃ e, oe = some e ∧
        (dom.stylePosition e = "absolute" ∨ dom.computedPosition e = "absolute")) := by
  refine ⟨rfl, fun oe => ?_⟩
  cases oe with
  | none => simp [isAbsolutelyPositioned]
  | some e => simp [isAbsolutelyPositioned]

/-- C4: `isContainingBlockICB` holds iff (the containing-block parent
is absent, or it equals the document body under a Firefox engine) and
neither the element nor its direct tree parent has display `none`. -/
theorem isContainingBlockICB_spec (dom : Dom) (floating : Nat) :
    isContainingBlockICB dom floating = true ↔
      ((dom.offsetParent floating = none ∨
        (dom.offsetParent floating = dom.body ∧ dom.uaIsFirefox = true)) ∧
       hasDisplayNone dom (some floating) = false ∧
       hasDisplayNone dom (dom.parentElement floating) = false) := by
  simp only [isContainingBlockICB]
  split_ifs with hc
  · simp only [true_iff]
    simp only [Bool.and_eq_true, Bool.or_eq_true, Bool.not_eq_true',
      decide_eq_true_eq, Bool.and_eq_false_iff, Bool.or_eq_false_iff] at hc
    obtain ⟨hor, hdn⟩ := hc
    refine ⟨?_, ?_, ?_⟩
    · rcases hor with hnone | ⟨hbody, hff⟩
      · exact Or.inl hnone
      · exact Or.inr ⟨hbody, hff⟩
    · exact hdn.1
    · exact hdn.2
  · simp only [false_iff]
    intro ⟨hor, hdn1, hdn2⟩
    apply hc
    simp only [Bool.and_eq_true, Bool.or_eq_true, Bool.not_eq_true',
      decide_eq_true_eq, Bool.or_eq_false_iff]
    exact ⟨by tauto, hdn1, hdn2⟩

/-- C2: when the anchor and the floating element share a
containing-block parent and the anchor is absolutely positioned,
`isValidAnchorElement` returns `false` (Rule 1). -/
theorem isValidAnchorElement_same_cb_absolute (dom : Dom) (anchor floating : Nat)
    (h1 : dom.offsetParent anchor = dom.offsetParent floating)
    (h2 : isAbsolutelyPositioned dom (some anchor) = true) :
    isValidAnchorElement dom anchor floating = false := by
  simp [isValidAnchorElement, h1, h2]

/-- Witness for C2: in `exDom`, anchor 3 is absolutely positioned and
shares containing block 4 with floating element 1. -/
theorem isValidAnchorElement_same_cb_absolute_witness :
    exDom.offsetParent 3 = exDom.offsetParent 1 ∧
    isAbsolutelyPositioned exDom (some 3) = true ∧
    isValidAnchorElement exDom 3 1 = false :=
  ⟨rfl, rfl, isValidAnchorElement_same_cb_absolute exDom 3 1 rfl rfl⟩

/-- C1: with differing containing-block parents, the walk accumulates
nodes from the anchor's containing-block parent, stopping at the
floating element's containing-block parent or at a missing parent; the
result is `false` exactly when the chain tail is absolutely positioned,
and otherwise falls through to Rule 3 — the absoluteness of
intermediate chain nodes does not enter the result. -/
theorem isValidAnchorElement_chain_tail (dom : Dom) (anchor floating : Nat)
    (h : dom.offsetParent anchor ≠ dom.offsetParent floating) :
    (cbChainFrom dom (dom.offsetParent floating) none = [] ∧
     ∀ cb, cbChainFrom dom (dom.offsetParent floating) (some cb) =
       if some cb = dom.offsetParent floating then []
       else cb :: cbChainFrom dom (dom.offsetParent floating) (dom.offsetParent cb)) ∧
    isValidAnchorElement dom anchor floating =
      if isAbsolutelyPositioned dom (anchorCBchain dom anchor floating).getLast? then
        false
      else
        isDescendant dom anchor floating || isContainingBlockICB dom floating := by
  refine ⟨⟨cbChainFrom_none dom _, fun cb => cbChainFrom_some dom _ cb⟩, ?_⟩
  unfold isValidAnchorElement
  have h1 : decide (dom.offsetParent anchor = dom.offsetParent floating) = false :=
    decide_eq_false h
  have h2 : decide (dom.offsetParent anchor ≠ dom.offsetParent floating) = true :=
    decide_eq_true h
  rw [h1, h2]
  simp

/-- Witness for C1: in `exDom`, the anchor 0 has chain `[2, 3]` toward
floating element 1's containing block 4, and the tail 3 is absolutely
positioned, so validation fails. -/
theorem isValidAnchorElement_chain_tail_witness :
    anchorCBchain exDom 0 1 = [2, 3] ∧ isValidAnchorElement exDom 0 1 = false := by
  have h := (isValidAnchorElement_chain_tail exDom 0 1 (by decide)).2
  exact ⟨rfl, by rw [h]; rfl⟩

/-- C3: when neither Rule 1 nor Rule 2 disqualifies the pair,
`isValidAnchorElement` returns `true` iff the floating element's
containing-block parent exists and contains the anchor, or the floating
element's containing block is the initial containing block; with an
absent containing-block parent the descendant test degrades to
`false` rather than failing. -/
theorem isValidAnchorElement_descendant_or_icb (dom : Dom) (anchor floating : Nat)
    (h1 : ¬(isAbsolutelyPositioned dom (some anchor) = true ∧
            dom.offsetParent anchor = dom.offsetParent floating))
    (h2 : ¬(dom.offsetParent anchor ≠ dom.offsetParent floating ∧
            isAbsolutelyPositioned dom
              (anchorCBchain dom anchor floating).getLast? = true)) :
    (isValidAnchorElement dom anchor floating = true ↔
      (∃ p, dom.offsetParent floating = some p ∧ dom.containsElem p anchor = true) ∨
      isContainingBlockICB dom floating = true) ∧
    (dom.offsetParent floating = none → isDescendant dom anchor floating = false) := by
  have c1 : (isAbsolutelyPositioned dom (some anchor) &&
      decide (dom.offsetParent anchor = dom.offsetParent floating)) = false := by
    cases hA : isAbsolutelyPositioned dom (some anchor) with
    | false => simp
    | true =>
      simp only [Bool.true_and]
      exact decide_eq_false fun hB => h1 ⟨hA, hB⟩
  have c2 : (decide (dom.offsetParent anchor ≠ dom.offsetParent floating) &&
      isAbsolutelyPositioned dom
        (anchorCBchain dom anchor floating).getLast?) = false := by
    cases hne : decide (dom.offsetParent anchor ≠ dom.offsetParent floating) with
    | false => simp
    | true =>
      simp only [Bool.true_and]
      rw [decide_eq_true_eq] at hne
      cases ht : isAbsolutelyPositioned dom
          (anchorCBchain dom anchor floating).getLast? with
      | false => rfl
      | true => exact absurd ⟨hne, ht⟩ h2
  constructor
  · unfold isValidAnchorElement
    rw [c1, c2]
    simp only [Bool.false_eq_true, if_false]
    unfold isDescendant
    cases hf : dom.offsetParent floating with
    | none => simp
    | some p => simp
  · intro hf
    simp [isDescendant, hf]

/-- Witness for C3: in `exDom`, anchor 5 is static, shares containing
block 4 with floating element 1, and is contained in 4, so validation
succeeds via the descendant branch. -/
theorem isValidAnchorElement_descendant_or_icb_witness :
    isValidAnchorElement exDom 5 1 = true :=
  (isValidAnchorElement_descendant_or_icb exDom 5 1 (by decide) (by decide)).1.mpr
    (Or.inl ⟨4, rfl, rfl⟩)

/-- C6: with differing containing-block parents but an absent anchor
containing-block parent, the walk accumulates nothing, the absent chain
tail counts as not absolutely positioned, and control falls through to
Rule 3. -/
theorem isValidAnchorElement_empty_chain (dom : Dom) (anchor floating : Nat)
    (h1 : dom.offsetParent anchor ≠ dom.offsetParent floating)
    (h2 : dom.offsetParent anchor = none) :
    anchorCBchain dom anchor floating = [] ∧
    isValidAnchorElement dom anchor floating =
      (isDescendant dom anchor floating || isContainingBlockICB dom floating) := by
  have hchain : anchorCBchain dom anchor floating = [] := by
    rw [anchorCBchain, h2]
    exact cbChainFrom_none dom _
  refine ⟨hchain, ?_⟩
  unfold isValidAnchorElement
  have c1 : decide (dom.offsetParent anchor = dom.offsetParent floating) = false :=
    decide_eq_false h1
  rw [c1, hchain]
  simp [isAbsolutelyPositioned]

/-- Witness for C6: in `exDomFF`, anchor 21 has no containing-block
parent while floating element 20's containing block is the initial
containing block, so validation succeeds via the ICB fallback. -/
theorem isValidAnchorElement_empty_chain_witness :
    anchorCBchain exDomFF 21 20 = [] ∧ isValidAnchorElement exDomFF 21 20 = true := by
  have h := isValidAnchorElement_empty_chain exDomFF 21 20 (by decide) rfl
  exact ⟨h.1, by rw [h.2]; rfl⟩

/-- C5: under a Firefox engine, a floating element whose
containing-block parent is the document body gets the same
`isContainingBlockICB` result as the same element with an absent
containing-block parent. -/
theorem isContainingBlockICB_firefox_quirk (dom : Dom) (floating b : Nat)
    (hb : dom.body = some b) (hop : dom.offsetParent floating = some b)
    (hff : dom.uaIsFirefox = true) :
    isContainingBlockICB dom floating =
      isContainingBlockICB (setOffsetParentNone dom floating) floating := by
  have hdn1 : hasDisplayNone (setOffsetParentNone dom floating) (some floating) =
      hasDisplayNone dom (some floating) :=
    hasDisplayNone_congr _ _ rfl rfl _
  have hdn2 : hasDisplayNone (setOffsetParentNone dom floating)
        ((setOffsetParentNone dom floating).parentElement floating) =
      hasDisplayNone dom (dom.parentElement floating) :=
    hasDisplayNone_congr _ _ rfl rfl _
  have hop' : (setOffsetParentNone dom floating).offsetParent floating = none := by
    simp [setOffsetParentNone, setOPfun]
  have hbody' : (setOffsetParentNone dom floating).body = dom.body := rfl
  have hua' : (setOffsetParentNone dom floating).uaIsFirefox = dom.uaIsFirefox := rfl
  unfold isContainingBlockICB
  rw [hdn1, hdn2, hop', hbody', hua', hb, hop, hff]
  simp

/-- Witness for C5: in `exDomFF`, floating element 20's
containing-block parent is the body element 10 and the engine is
Firefox; removing the containing-block parent leaves the ICB result
unchanged (both `true`). -/
theorem isContainingBlockICB_firefox_quirk_witness :
    isContainingBlockICB exDomFF 20 =
      isContainingBlockICB (setOffsetParentNone exDomFF 20) 20 ∧
    isContainingBlockICB exDomFF 20 = true :=
  ⟨isContainingBlockICB_firefox_quirk exDomFF 20 10 rfl rfl rfl, rfl⟩

/-- C7: with a present floating element, the selectors are joined
comma-separated into one query; the matches are scanned in document
order and the first validating element is returned, or absent when none
validates; in particular `[e₁, e₂]` with `e₁` failing and `e₂` passing
yields `e₂`. -/
theorem validatedForPositioning_first_valid (dom : Dom) (floating : Nat)
    (anchorSelectors : List String) (els : List Nat)
    (h : dom.querySelectorAll (joinSelectors anchorSelectors) = Except.ok els) :
    validatedForPositioning dom (some floating) anchorSelectors =
      Except.ok (els.find? fun anchor => isValidAnchorElement dom anchor floating) ∧
    (∀ e₁ e₂, els = [e₁, e₂] →
      isValidAnchorElement dom e₁ floating = false →
      isValidAnchorElement dom e₂ floating = true →
      validatedForPositioning dom (some floating) anchorSelectors =
        Except.ok (some e₂)) ∧
    ((∀ a ∈ els, isValidAnchorElement dom a floating = false) →
      validatedForPositioning dom (some floating) anchorSelectors =
        Except.ok none) := by
  have hmain : validatedForPositioning dom (some floating) anchorSelectors =
      Except.ok (els.find? fun anchor => isValidAnchorElement dom anchor floating) := by
    unfold validatedForPositioning
    rw [h]
  refine ⟨hmain, ?_, ?_⟩
  · intro e₁ e₂ hels hfail hpass
    subst hels
    rw [hmain]
    simp [List.find?, hfail, hpass]
  · intro hall
    have hnone : els.find?
        (fun anchor => isValidAnchorElement dom anchor floating) = none := by
      rw [List.find?_eq_none]
      intro a ha
      simp [hall a ha]
    rw [hmain, hnone]

/-- Witness for C7: in `exDom`, the query `"x, y"` matches `[3, 5]` in
document order; 3 fails validation and 5 passes, so the result is 5. -/
theorem validatedForPositioning_first_valid_witness :
    validatedForPositioning exDom (some 1) ["x", "y"] = Except.ok (some 5) :=
  (validatedForPositioning_first_valid exDom 1 ["x", "y"] [3, 5] rfl).2.1 3 5
    rfl rfl rfl

/-- C8: with an absent floating element, `validatedForPositioning`
returns absent immediately for every snapshot and selector list — in
particular even for snapshots whose every query throws, showing that no
document query is issued. -/
theorem validatedForPositioning_absent_floating (dom : Dom)
    (anchorSelectors : List String) :
    validatedForPositioning dom none anchorSelectors = Except.ok none := rfl

/-- C10: with a present floating element and an empty selector list,
the empty-string selector is still queried and a host error raised for
it propagates unmodified, rather than being converted to an absent
result. -/
theorem validatedForPositioning_empty_selectors (dom : Dom) (floating : Nat)
    (e : String) (h : dom.querySelectorAll "" = Except.error e) :
    joinSelectors [] = "" ∧
    validatedForPositioning dom (some floating) [] = Except.error e := by
  refine ⟨rfl, ?_⟩
  unfold validatedForPositioning
  rw [show joinSelectors [] = "" from rfl, h]

/-- Witness for C10: in `exDom`, querying the empty selector throws
`SyntaxError`, and the error surfaces from `validatedForPositioning`. -/
theorem validatedForPositioning_empty_selectors_witness :
    validatedForPositioning exDom (some 1) [] = Except.error "SyntaxError" :=
  (validatedForPositioning_empty_selectors exDom 1 "SyntaxError" rfl).2
